import Mathlib

/-!
Verification of the chain module of mikesparr/rust-blockchain
(src/src/chain.rs), shallowly embedded in Lean 4.

The Rust `u32` fields are modelled as `Nat` with the arithmetic the source
performs on them reduced modulo `2 ^ 32`.  The SHA-256 digest comes from the
external `crypto` crate, which is not part of this repository; the whole
development is therefore parametrised by the digest function
`sha : String → String` (standing for `Sha256::result_str` on the input
string, hex rendering included).  None of the properties proved below
depends on which function `sha` is.
-/

namespace RustChain

/-- The error enum of chain.rs (`quick_error!`): `InvalidBlock` is returned
by `add_block`, `InvalidChain` by `replace`. -/
inductive Error where
  | InvalidBlock
  | InvalidChain
deriving DecidableEq

/-- `struct Block` of chain.rs.  `index` and `timestamp` are `u32` in the
source, modelled as `Nat` (see the module comment). -/
structure Block where
  index : Nat
  timestamp : Nat
  hash : String
  prev_hash : String
  payload : String
deriving DecidableEq

/-- `struct Blockchain` of chain.rs: a growable vector of blocks, modelled
as a list. -/
structure Blockchain where
  blocks : List Block
deriving DecidableEq

/-- `fn calc_hash(index, timestamp, prev_hash, payload)`: the source
concatenates the decimal renderings of `index` and `timestamp` with
`prev_hash` and `payload` (via `format!`) and digests the record with
SHA-256, returning the hex string.  The digest itself is the external
crate, abstracted as `sha`. -/
def calc_hash (sha : String → String) (index timestamp : Nat)
    (prev_hash payload : String) : String :=
  sha (toString index ++ toString timestamp ++ prev_hash ++ payload)

/-- The fingerprint of a block recomputed from its own fields, as both
origin comparisons in `is_chain_valid` do. -/
def recomputedHash (sha : String → String) (b : Block) : String :=
  calc_hash sha b.index b.timestamp b.prev_hash b.payload

/-- `fn is_block_valid(prev_block, new_block)`, clause for clause: the index
must advance by one, the stored `prev_hash` must equal the predecessor's
stored `hash`, and the stored `hash` must equal the fingerprint recomputed
from the block's own fields. -/
def is_block_valid (sha : String → String) (prev_block new_block : Block) : Bool :=
  if (prev_block.index + 1) % 2 ^ 32 ≠ new_block.index then false
  else if prev_block.hash ≠ new_block.prev_hash then false
  else if calc_hash sha new_block.index new_block.timestamp
      new_block.prev_hash new_block.payload ≠ new_block.hash then false
  else true

/-- The `for new_block in new_chain.blocks.iter()` loop of
`is_chain_valid`, with its two mutable variables `prev_block` and `index`
as explicit state.  Kept faithful to the source: the body never reassigns
`prev_block`, and the `index += 1` statement is reached only while `index`
is `0`, because on every later iteration the body ends in `continue` or
`return false` before it. -/
def chainWalk (sha : String → String) (prev_block : Block) (index : Nat) :
    List Block → Bool
  | [] => true
  | new_block :: rest =>
    if index > 0 then
      if is_block_valid sha prev_block new_block then
        chainWalk sha prev_block index rest
      else
        false
    else
      chainWalk sha prev_block (index + 1) rest

/-- `fn is_chain_valid(current_chain, new_chain)`: fails when either chain
has no first block, compares the recomputed fingerprints of the two first
blocks, then runs the walk loop over all of `new_chain.blocks` from the
state `prev_block = new_origin`, `index = 0`. -/
def is_chain_valid (sha : String → String)
    (current_chain new_chain : Blockchain) : Bool :=
  match current_chain.blocks with
  | [] => false
  | genesis_block :: _ =>
    match new_chain.blocks with
    | [] => false
    | new_origin :: _ =>
      if calc_hash sha genesis_block.index genesis_block.timestamp
            genesis_block.prev_hash genesis_block.payload
          ≠ calc_hash sha new_origin.index new_origin.timestamp
            new_origin.prev_hash new_origin.payload then
        false
      else
        chainWalk sha new_origin 0 new_chain.blocks

/-- `Block::new(prev_block, payload)`: index and timestamp advance by 1 and
10 in `u32` arithmetic, `prev_hash` copies the predecessor's stored hash,
and `hash` is computed by `calc_hash` from the new fields. -/
def Block.new (sha : String → String) (prev_block : Block) (payload : String) :
    Block :=
  let index := (prev_block.index + 1) % 2 ^ 32
  let timestamp := (prev_block.timestamp + 10) % 2 ^ 32
  let prev_hash := prev_block.hash
  { hash := calc_hash sha index timestamp prev_hash payload
    index := index
    timestamp := timestamp
    prev_hash := prev_hash
    payload := payload }

/-- `Blockchain::new(genesis_block)`: wraps the supplied block, checking
nothing about it. -/
def Blockchain.new (genesis_block : Block) : Blockchain :=
  { blocks := [genesis_block] }

/-- `Blockchain::add_block(&mut self, payload)`.  The Rust method mutates
`self` and returns `Result<(), Error>`; here it returns the result paired
with the state of `self` after the call. -/
def Blockchain.add_block (sha : String → String) (self : Blockchain)
    (payload : String) : Except Error Unit × Blockchain :=
  match self.blocks.getLast? with
  | some prev_block =>
    let new_block := Block.new sha prev_block payload
    if is_block_valid sha prev_block new_block then
      (Except.ok (), { blocks := self.blocks ++ [new_block] })
    else
      (Except.error Error.InvalidBlock, self)
  | none => (Except.error Error.InvalidBlock, self)

/-- `Blockchain::replace(&mut self, new_chain)`.  As with `add_block`, the
mutation of `self` is returned as the second component. -/
def Blockchain.replace (sha : String → String) (self new_chain : Blockchain) :
    Except Error Unit × Blockchain :=
  let local_len := self.blocks.length
  let new_len := new_chain.blocks.length
  if is_chain_valid sha self new_chain ∧ new_len > local_len then
    (Except.ok (), { blocks := new_chain.blocks })
  else
    (Except.error Error.InvalidChain, self)

/-- The adjacent-pair walk the spec describes for whole-chain validation:
every block from the second onward is validated against its immediate
predecessor in the list.  Also the notion of an internally valid chain. -/
def adjacentValid (sha : String → String) : List Block → Bool
  | [] => true
  | [_] => true
  | a :: b :: rest => is_block_valid sha a b && adjacentValid sha (b :: rest)

/-- The genesis block the driver `run()` constructs: stored fingerprint left
empty. -/
def genesis : Block :=
  { index := 0
    timestamp := 0
    hash := ""
    prev_hash := ""
    payload := "Genesis block baby!" }

/-- A second origin block whose stored fingerprint equals the stored
fingerprint of `genesis` but whose recomputed fingerprint differs for any
injective digest (the payload differs). -/
def foreignGenesis : Block :=
  { index := 0
    timestamp := 0
    hash := ""
    prev_hash := ""
    payload := "Other origin" }

/-- A two-block chain grown from `genesis` by block construction. -/
def chainA (sha : String → String) : Blockchain :=
  { blocks := [genesis, Block.new sha genesis "Second block baby!"] }

/-- The second block of `chainB`. -/
def blockB1 (sha : String → String) : Block :=
  Block.new sha genesis "Second block baby!"

/-- The third block of `chainB`, a valid successor of `blockB1`. -/
def blockB2 (sha : String → String) : Block :=
  Block.new sha (blockB1 sha) "Third block baby!"

/-- A three-block chain with the same origin as `chainA`, internally valid
by construction. -/
def chainB (sha : String → String) : Blockchain :=
  { blocks := [genesis, blockB1 sha, blockB2 sha] }

/-- Chain states reachable from `Blockchain::new` through `add_block` and
`replace` (the post-state of each call, whether it succeeded or failed). -/
inductive Reachable (sha : String → String) : Blockchain → Prop where
  | new (genesis_block : Block) : Reachable sha (Blockchain.new genesis_block)
  | add (c : Blockchain) (payload : String) :
      Reachable sha c → Reachable sha (c.add_block sha payload).2
  | repl (c new_chain : Blockchain) :
      Reachable sha c → Reachable sha (c.replace sha new_chain).2

/-! ## Basic lemmas -/

/-- A freshly constructed block always passes `is_block_valid` against the
block it was built from, whatever the digest function is. -/
lemma is_block_valid_block_new (sha : String → String) (prev : Block)
    (payload : String) :
    is_block_valid sha prev (Block.new sha prev payload) = true := by
  simp [is_block_valid, Block.new]

/-- The walk loop in state `index = 1` checks every remaining block against
the fixed `prev_block`. -/
lemma chainWalk_one (sha : String → String) (o : Block) (bs : List Block) :
    chainWalk sha o 1 bs = bs.all (fun b => is_block_valid sha o b) := by
  induction bs with
  | nil => simp [chainWalk]
  | cons b rest ih =>
    by_cases h : is_block_valid sha o b = true
    · simp [chainWalk, h, ih]
    · simp [chainWalk, h]

/-- From the initial state, the walk skips the first block and then checks
every later block against `prev_block`. -/
lemma chainWalk_zero_cons (sha : String → String) (o b : Block)
    (bs : List Block) :
    chainWalk sha o 0 (b :: bs) = bs.all (fun x => is_block_valid sha o x) := by
  simp [chainWalk, chainWalk_one]

/-- `is_chain_valid` on two non-empty chains reduces to the origin
comparison followed by the walk, and the walk compares every later block to
the candidate's first block. -/
lemma is_chain_valid_cons (sha : String → String) (cur cand : Blockchain)
    (g o : Block) (gs os : List Block)
    (hg : cur.blocks = g :: gs) (ho : cand.blocks = o :: os) :
    is_chain_valid sha cur cand =
      (decide (recomputedHash sha g = recomputedHash sha o) &&
        os.all (fun b => is_block_valid sha o b)) := by
  simp only [is_chain_valid, hg, ho]
  by_cases h : recomputedHash sha g = recomputedHash sha o
  · rw [if_neg (by simpa [recomputedHash, calc_hash] using h)]
    rw [chainWalk_zero_cons]
    simp [h]
  · rw [if_pos (by simpa [recomputedHash, calc_hash] using h)]
    simp [h]

/-- Characterisation of `is_chain_valid`: both chains must be non-empty,
the recomputed fingerprints of the two first blocks must agree, and every
block of the candidate after the first must be a valid successor of the
candidate's FIRST block (the loop never advances `prev_block`). -/
lemma is_chain_valid_iff (sha : String → String) (cur cand : Blockchain) :
    is_chain_valid sha cur cand = true ↔
      ∃ g gs o os, cur.blocks = g :: gs ∧ cand.blocks = o :: os ∧
        recomputedHash sha g = recomputedHash sha o ∧
        os.all (fun b => is_block_valid sha o b) = true := by
  cases hcur : cur.blocks with
  | nil => simp [is_chain_valid, hcur]
  | cons g gs =>
    cases hcand : cand.blocks with
    | nil => simp [is_chain_valid, hcur, hcand]
    | cons o os =>
      rw [is_chain_valid_cons sha cur cand g o gs os hcur hcand]
      constructor
      · intro hv
        refine ⟨g, gs, o, os, rfl, rfl, ?_, ?_⟩
        · exact of_decide_eq_true (Bool.and_elim_left hv)
        · exact Bool.and_elim_right hv
      · rintro ⟨g2, gs2, o2, os2, h1, h2, h3, h4⟩
        injection h1 with e1 e2
        injection h2 with e3 e4
        subst e1
        subst e3
        subst e4
        simp [h3, h4]

/-- `replace` on a valid, strictly longer candidate installs the
candidate's blocks and reports success. -/
lemma replace_eq_pos (sha : String → String) (self cand : Blockchain)
    (h : is_chain_valid sha self cand = true)
    (hl : self.blocks.length < cand.blocks.length) :
    self.replace sha cand = (Except.ok (), { blocks := cand.blocks }) := by
  unfold Blockchain.replace
  rw [if_pos ⟨h, hl⟩]

/-- `replace` in every other case reports `InvalidChain` and returns the
chain unchanged. -/
lemma replace_eq_neg (sha : String → String) (self cand : Blockchain)
    (h : ¬(is_chain_valid sha self cand = true ∧
      self.blocks.length < cand.blocks.length)) :
    self.replace sha cand = (Except.error Error.InvalidChain, self) := by
  unfold Blockchain.replace
  rw [if_neg (fun hc => h ⟨hc.1, hc.2⟩)]

/-- A block that passes `is_block_valid` has the successor index, reduced
modulo `2 ^ 32`. -/
lemma is_block_valid_index (sha : String → String) (p b : Block)
    (h : is_block_valid sha p b = true) :
    b.index = (p.index + 1) % 2 ^ 32 := by
  unfold is_block_valid at h
  by_cases hx : (p.index + 1) % 2 ^ 32 = b.index
  · exact hx.symm
  · rw [if_pos hx] at h
    simp at h

/-- The third block of `chainB` is not accepted as a successor of its
genesis: the index check fails (2 is not 1). -/
lemma is_block_valid_genesis_blockB2 (sha : String → String) :
    is_block_valid sha genesis (blockB2 sha) = false := by
  simp [is_block_valid, blockB2, blockB1, Block.new, genesis]

/-- `chainB` is internally valid in the adjacent-pair sense. -/
lemma adjacentValid_chainB (sha : String → String) :
    adjacentValid sha (chainB sha).blocks = true := by
  simp [adjacentValid, chainB, blockB1, blockB2, is_block_valid_block_new]

/-- The walk checks the third block of `chainB` against the first one and
therefore rejects the whole chain. -/
lemma is_chain_valid_chainA_chainB (sha : String → String) :
    is_chain_valid sha (chainA sha) (chainB sha) = false := by
  rw [is_chain_valid_cons sha (chainA sha) (chainB sha) genesis genesis
    [Block.new sha genesis "Second block baby!"] [blockB1 sha, blockB2 sha]
    rfl rfl]
  simp [is_block_valid_genesis_blockB2 sha]

/-! ## Claim theorems -/

/-- C1: replace acceptance fails on the code.  `chainA` has length 2 and
`chainB` has the very same origin block, length 3 and is internally valid
(each block after the first is a valid successor of its immediate
predecessor), yet `replace` returns the `InvalidChain` error and leaves
`chainA` unchanged, because the validation loop checks the third block of
`chainB` against its first block. -/
theorem replace_rejects_valid_longer_chain (sha : String → String) :
    (chainA sha).blocks.length = 2 ∧
    (chainB sha).blocks.length = 3 ∧
    (chainA sha).blocks.head? = some genesis ∧
    (chainB sha).blocks.head? = some genesis ∧
    adjacentValid sha (chainB sha).blocks = true ∧
    ((chainA sha).replace sha (chainB sha)).1 = Except.error Error.InvalidChain ∧
    ((chainA sha).replace sha (chainB sha)).2 = chainA sha := by
  refine ⟨rfl, rfl, rfl, rfl, adjacentValid_chainB sha, ?_, ?_⟩ <;>
    simp [Blockchain.replace, is_chain_valid_chainA_chainB sha]

/-- C2: the whole-chain check is not the adjacent-pair check.  For the
reference `chainA` and the candidate `chainB` (both non-empty, identical
first blocks, every adjacent pair of `chainB` valid) the claimed
characterisation demands `is_chain_valid = true`, but the code returns
`false`. -/
theorem chain_walk_not_adjacent (sha : String → String) :
    (chainA sha).blocks ≠ [] ∧
    (chainB sha).blocks ≠ [] ∧
    (chainA sha).blocks.head? = (chainB sha).blocks.head? ∧
    adjacentValid sha (chainB sha).blocks = true ∧
    is_chain_valid sha (chainA sha) (chainB sha) = false := by
  refine ⟨?_, ?_, rfl, adjacentValid_chainB sha, is_chain_valid_chainA_chainB sha⟩ <;>
    simp [chainA, chainB]

/-- C3: the actual behaviour of the chain walk.  `is_chain_valid` returns
true exactly when both chains are non-empty, the recomputed fingerprints of
the two first blocks agree, and every block of the candidate after the
first is a valid successor of the candidate's FIRST block; consequently a
chain whose adjacent pairs are all valid fails the check as soon as it has
at least three blocks. -/
theorem chain_validation_uses_first_block (sha : String → String)
    (cur cand : Blockchain) :
    (is_chain_valid sha cur cand = true ↔
      ∃ g gs o os, cur.blocks = g :: gs ∧ cand.blocks = o :: os ∧
        recomputedHash sha g = recomputedHash sha o ∧
        os.all (fun b => is_block_valid sha o b) = true) ∧
    (adjacentValid sha cand.blocks = true → 3 ≤ cand.blocks.length →
      is_chain_valid sha cur cand = false) := by
  refine ⟨is_chain_valid_iff sha cur cand, ?_⟩
  intro hadj hlen
  rcases Bool.eq_false_or_eq_true (is_chain_valid sha cur cand) with hb | hb
  rotate_left
  · exact hb
  exfalso
  obtain ⟨g, gs, o, os, h1, h2, h3, h4⟩ := (is_chain_valid_iff sha cur cand).1 hb
  rw [h2] at hlen hadj
  match os, hlen, hadj, h4 with
  | c1 :: c2 :: rest, _, hadj, h4 =>
    simp only [adjacentValid, Bool.and_eq_true] at hadj
    simp only [List.all_cons, Bool.and_eq_true] at h4
    have e1 : c1.index = (o.index + 1) % 2 ^ 32 :=
      is_block_valid_index sha o c1 h4.1
    have e2 : c2.index = (c1.index + 1) % 2 ^ 32 :=
      is_block_valid_index sha c1 c2 hadj.2.1
    have e3 : c2.index = (o.index + 1) % 2 ^ 32 :=
      is_block_valid_index sha o c2 h4.2.1
    have h32 : (2 : Nat) ^ 32 = 4294967296 := by norm_num
    rw [h32] at e1 e2 e3
    omega

/-- C4: the replace policy.  `replace` succeeds exactly when the candidate
passes `is_chain_valid` and is strictly longer; on success the candidate's
blocks are installed; in every other case (equal length included) it
returns the `InvalidChain` error and the chain is unmodified. -/
theorem replace_policy (sha : String → String) (self cand : Blockchain) :
    ((self.replace sha cand).1 = Except.ok () ↔
      (is_chain_valid sha self cand = true ∧
        self.blocks.length < cand.blocks.length)) ∧
    ((self.replace sha cand).1 = Except.ok () →
      (self.replace sha cand).2.blocks = cand.blocks) ∧
    ((self.replace sha cand).1 ≠ Except.ok () →
      (self.replace sha cand).1 = Except.error Error.InvalidChain ∧
        (self.replace sha cand).2 = self) ∧
    (cand.blocks.length = self.blocks.length →
      (self.replace sha cand).1 = Except.error Error.InvalidChain) := by
  by_cases h : is_chain_valid sha self cand = true ∧
      self.blocks.length < cand.blocks.length
  · refine ⟨by simp [Blockchain.replace, h.1, h.2], ?_, ?_, ?_⟩
    · intro _
      simp [Blockchain.replace, h.1, h.2]
    · intro hne
      exact absurd (by simp [Blockchain.replace, h.1, h.2]) hne
    · intro hlen
      omega
  · have herr : (self.replace sha cand).1 = Except.error Error.InvalidChain ∧
        (self.replace sha cand).2 = self := by
      unfold Blockchain.replace
      rw [if_neg (by exact fun hc => h ⟨hc.1, hc.2⟩)]
      exact ⟨rfl, rfl⟩
    refine ⟨?_, ?_, fun _ => herr, fun _ => herr.1⟩
    · rw [herr.1]
      simp [h]
    · intro hok
      rw [herr.1] at hok
      cases hok

/-- C5: append success and monotonicity.  On any chain with at least one
block, `add_block` returns Ok (the defensive re-validation cannot fail
because a block built by `Block::new` is a valid successor of the block it
was built from), the length grows by one, every previously stored block is
unchanged, and the new last block is a valid successor of the old last
block. -/
theorem add_block_success (sha : String → String) (self : Blockchain)
    (payload : String) (h : self.blocks ≠ []) :
    (self.add_block sha payload).1 = Except.ok () ∧
    (self.add_block sha payload).2.blocks =
      self.blocks ++ [Block.new sha (self.blocks.getLast h) payload] ∧
    (self.add_block sha payload).2.blocks.length = self.blocks.length + 1 ∧
    is_block_valid sha (self.blocks.getLast h)
      (Block.new sha (self.blocks.getLast h) payload) = true := by
  have hg : self.blocks.getLast? = some (self.blocks.getLast h) :=
    List.getLast?_eq_getLast_of_ne_nil h
  refine ⟨?_, ?_, ?_, is_block_valid_block_new sha (self.blocks.getLast h) payload⟩ <;>
    simp [Blockchain.add_block, hg, is_block_valid_block_new]

/-- C5 witness: appending to the one-block genesis chain succeeds. -/
theorem add_block_success_witness :
    ((Blockchain.new genesis).add_block (fun s => s) "Second block baby!").1 =
      Except.ok () :=
  (add_block_success (fun s => s) (Blockchain.new genesis) "Second block baby!"
    (by simp [Blockchain.new])).1

/-- C6: origin mismatch is rejected.  Whenever the recomputed fingerprint of
the candidate's first block differs from the recomputed fingerprint of the
reference's first block (whatever the stored fingerprint fields hold and
whatever the candidate's length is), `is_chain_valid` returns false and
`replace` returns the `InvalidChain` error leaving the chain unchanged. -/
theorem origin_mismatch_rejected (sha : String → String)
    (cur cand : Blockchain) (g o : Block) (gs os : List Block)
    (hg : cur.blocks = g :: gs) (ho : cand.blocks = o :: os)
    (hne : recomputedHash sha g ≠ recomputedHash sha o) :
    is_chain_valid sha cur cand = false ∧
    (cur.replace sha cand).1 = Except.error Error.InvalidChain ∧
    (cur.replace sha cand).2 = cur := by
  have hv : is_chain_valid sha cur cand = false := by
    rw [is_chain_valid_cons sha cur cand g o gs os hg ho]
    simp [hne]
  refine ⟨hv, ?_, ?_⟩ <;> simp [Blockchain.replace, hv]

/-- C6 witness: a one-block candidate whose origin has the same stored
(empty) fingerprint as `genesis` but a different payload, hence a different
recomputed fingerprint under the identity digest, is rejected. -/
theorem origin_mismatch_rejected_witness :
    is_chain_valid (fun s => s) (Blockchain.new genesis)
      (Blockchain.new foreignGenesis) = false :=
  (origin_mismatch_rejected (fun s => s) (Blockchain.new genesis)
    (Blockchain.new foreignGenesis) genesis foreignGenesis [] [] rfl rfl
    (by simp only [recomputedHash, calc_hash, genesis, foreignGenesis]
        decide)).1

/-- C7: single-block validity is exactly the three conditions (with the
index successor computed in u32 arithmetic, i.e. modulo 2 ^ 32), and the
timestamp is unconstrained: any timestamp whatsoever, together with the
three conditions, passes the check. -/
theorem block_validity_three_conditions (sha : String → String)
    (prev cand : Block) :
    (is_block_valid sha prev cand = true ↔
      (cand.index = (prev.index + 1) % 2 ^ 32 ∧ cand.prev_hash = prev.hash ∧
        cand.hash = calc_hash sha cand.index cand.timestamp
          cand.prev_hash cand.payload)) ∧
    (∀ t p, is_block_valid sha prev
      { index := (prev.index + 1) % 2 ^ 32
        timestamp := t
        hash := calc_hash sha ((prev.index + 1) % 2 ^ 32) t prev.hash p
        prev_hash := prev.hash
        payload := p } = true) := by
  constructor
  · unfold is_block_valid
    constructor
    · intro hv
      by_cases h1 : (prev.index + 1) % 2 ^ 32 = cand.index
      · rw [if_neg (fun hc => hc h1)] at hv
        by_cases h2 : prev.hash = cand.prev_hash
        · rw [if_neg (fun hc => hc h2)] at hv
          by_cases h3 : calc_hash sha cand.index cand.timestamp
              cand.prev_hash cand.payload = cand.hash
          · exact ⟨h1.symm, h2.symm, h3.symm⟩
          · rw [if_pos h3] at hv
            cases hv
        · rw [if_pos h2] at hv
          cases hv
      · rw [if_pos h1] at hv
        cases hv
    · rintro ⟨e1, e2, e3⟩
      rw [if_neg (fun hc => hc e1.symm), if_neg (fun hc => hc e2.symm),
        if_neg (fun hc => hc e3.symm)]
  · intro t p
    simp [is_block_valid]

/-- C8: every chain reachable from `Blockchain::new` through any sequence
of `add_block` and `replace` calls holds at least one block. -/
theorem reachable_nonempty (sha : String → String) (c : Blockchain)
    (h : Reachable sha c) : c.blocks ≠ [] := by
  induction h with
  | new g => simp [Blockchain.new]
  | add c payload hc ih =>
    cases hl : c.blocks.getLast? with
    | none => simpa [Blockchain.add_block, hl] using ih
    | some prev =>
      simp [Blockchain.add_block, hl, is_block_valid_block_new]
  | repl c d hc ih =>
    by_cases hv : is_chain_valid sha c d = true ∧
        c.blocks.length < d.blocks.length
    · obtain ⟨g, gs, o, os, h1, h2, h3, h4⟩ :=
        (is_chain_valid_iff sha c d).1 hv.1
      rw [replace_eq_pos sha c d hv.1 hv.2]
      simp [h2]
    · rw [replace_eq_neg sha c d hv]
      exact ih

/-- C8 witness: the freshly constructed genesis chain is reachable and
non-empty. -/
theorem reachable_nonempty_witness :
    (Blockchain.new genesis).blocks ≠ [] :=
  reachable_nonempty (fun s => s) (Blockchain.new genesis)
    (Reachable.new genesis)

/-- C9: the genesis fingerprint is accepted as given.  Constructing the
chain from the driver's genesis block (whose stored fingerprint is the
empty string) stores exactly that block unchecked; `add_block` then
succeeds, producing a two-block chain whose second block has index 1 and
links to the empty string, the stored and unverified genesis
fingerprint. -/
theorem genesis_fingerprint_unchecked (sha : String → String) :
    (Blockchain.new genesis).blocks = [genesis] ∧
    genesis.hash = "" ∧
    ((Blockchain.new genesis).add_block sha "Second block baby!").1 =
      Except.ok () ∧
    ((Blockchain.new genesis).add_block sha "Second block baby!").2.blocks =
      [genesis, Block.new sha genesis "Second block baby!"] ∧
    ((Blockchain.new genesis).add_block sha
      "Second block baby!").2.blocks.length = 2 ∧
    (Block.new sha genesis "Second block baby!").index = 1 ∧
    (Block.new sha genesis "Second block baby!").prev_hash = "" := by
  have hg : ((Blockchain.new genesis).blocks).getLast? = some genesis := rfl
  refine ⟨rfl, rfl, ?_, ?_, ?_, ?_, rfl⟩
  · simp [Blockchain.add_block, hg, is_block_valid_block_new]
  · simp [Blockchain.add_block, hg, is_block_valid_block_new, Blockchain.new]
  · simp [Blockchain.add_block, hg, is_block_valid_block_new, Blockchain.new]
  · show (genesis.index + 1) % 2 ^ 32 = 1
    norm_num [genesis]

/-- C10: `Block::new` advances the counters in u32 arithmetic.  The index
and timestamp of the constructed block are the predecessor's plus 1 and
plus 10 reduced modulo 2 ^ 32; within the stated ranges no wrap occurs and
the fields equal the exact sums, and at the top of the range the additions
wrap around. -/
theorem block_new_u32 (sha : String → String) (prev : Block)
    (payload : String) :
    (Block.new sha prev payload).index = (prev.index + 1) % 2 ^ 32 ∧
    (Block.new sha prev payload).timestamp = (prev.timestamp + 10) % 2 ^ 32 ∧
    (prev.index < 2 ^ 32 - 1 →
      (Block.new sha prev payload).index = prev.index + 1) ∧
    (prev.timestamp ≤ 2 ^ 32 - 11 →
      (Block.new sha prev payload).timestamp = prev.timestamp + 10) ∧
    (prev.index = 2 ^ 32 - 1 → (Block.new sha prev payload).index = 0) ∧
    (2 ^ 32 - 11 < prev.timestamp → prev.timestamp < 2 ^ 32 →
      (Block.new sha prev payload).timestamp =
        prev.timestamp + 10 - 2 ^ 32) := by
  have h32 : (2 : Nat) ^ 32 = 4294967296 := by norm_num
  refine ⟨rfl, rfl, ?_, ?_, ?_, ?_⟩ <;>
    · intros
      show _ % 2 ^ 32 = _
      rw [h32] at *
      omega

end RustChain
